import Mathlib

/-!
# CAS disk module: device-claim adapter and registry (`cas_disk_defs.h`)

A shallow embedding of `modules/cas_disk/cas_disk_defs.h`.

* The four inline adapter functions `open_bdev_exclusive`, `close_bdev_exclusive`,
  `bd_claim_by_disk`, `bd_release_from_disk` are thin wrappers around calls into the
  host kernel.  The host kernel is not part of the module, so it is a parameter:
  a `Host σ` gives, over an arbitrary host state `σ`, the four host entry points
  the header calls and the host constant `FMODE_EXCL`.
* `traced H` runs the host `H` and records every host call in a log, so that
  "which host calls were made, with which arguments, how often and in which
  order" is a statement about a list.
* `KRETURN` / `MAKE_RQ_RET_TYPE` are the two object-like results of the
  `#if / #elif / #else` chain on `LINUX_VERSION_CODE`.
* `struct casdsk_module` is embedded field by field (the mutex apart: operations
  are atomic transitions of the sequential model).  The registry operations
  themselves are not in this header; they are modelled from the specification.
-/

set_option linter.unusedVariables false

namespace CasDisk

/-! ## The host kernel interface -/

/-- Equality of results is decidable, so that concrete runs can be evaluated. -/
instance instDecidableEqExcept {ε α : Type} [DecidableEq ε] [DecidableEq α] :
    DecidableEq (Except ε α) := fun a b =>
  match a, b with
  | Except.ok x, Except.ok y =>
    if h : x = y then isTrue (by rw [h]) else isFalse (fun h2 => h (Except.ok.inj h2))
  | Except.error x, Except.error y =>
    if h : x = y then isTrue (by rw [h]) else isFalse (fun h2 => h (Except.error.inj h2))
  | Except.ok _, Except.error _ => isFalse (fun h => Except.noConfusion h)
  | Except.error _, Except.ok _ => isFalse (fun h => Except.noConfusion h)

/-- The type `fmode_t` of the host: an `unsigned int` bit mask. -/
abbrev fmode_t := Nat

/-- One call into the host kernel, with the arguments it was given.  Pointers
(`struct block_device *`, `void *holder`, `struct gendisk *`) are addresses. -/
inductive HostCall where
  | get_by_path (path : String) (mode : fmode_t) (holder : Nat)
  | put (bdev : Nat) (mode : fmode_t)
  | link_disk_holder (bdev : Nat) (disk : Nat)
  | unlink_disk_holder (bdev : Nat) (disk : Nat)
  deriving DecidableEq

/-- The host kernel as seen from `cas_disk_defs.h`: the constant `FMODE_EXCL` of
`linux/fs.h` and the four functions the header calls, as state transformers on
the host state `σ`.  `blkdev_get_by_path` returns either a device pointer or an
error pointer carrying an errno (`Except Int Nat`); `bd_link_disk_holder` returns
a C `int`. -/
structure Host (σ : Type) where
  FMODE_EXCL : fmode_t
  blkdev_get_by_path : String → fmode_t → Nat → σ → Except Int Nat × σ
  blkdev_put : Nat → fmode_t → σ → σ
  bd_link_disk_holder : Nat → Nat → σ → Int × σ
  bd_unlink_disk_holder : Nat → Nat → σ → σ

/-! ## The adapter functions of `cas_disk_defs.h` -/

/-- `return blkdev_get_by_path(path, mode | FMODE_EXCL, holder);` -/
def open_bdev_exclusive {σ : Type} (H : Host σ) (path : String) (mode : fmode_t)
    (holder : Nat) (s : σ) : Except Int Nat × σ :=
  H.blkdev_get_by_path path (mode ||| H.FMODE_EXCL) holder s

/-- `blkdev_put(bdev, mode | FMODE_EXCL);` -/
def close_bdev_exclusive {σ : Type} (H : Host σ) (bdev : Nat) (mode : fmode_t)
    (s : σ) : σ :=
  H.blkdev_put bdev (mode ||| H.FMODE_EXCL) s

/-- `return bd_link_disk_holder(bdev, disk);` (the parameter `holder` is not used). -/
def bd_claim_by_disk {σ : Type} (H : Host σ) (bdev : Nat) (holder : Nat) (disk : Nat)
    (s : σ) : Int × σ :=
  H.bd_link_disk_holder bdev disk s

/-- `return bd_unlink_disk_holder(bdev, disk);` (a `void` function). -/
def bd_release_from_disk {σ : Type} (H : Host σ) (bdev : Nat) (disk : Nat)
    (s : σ) : σ :=
  H.bd_unlink_disk_holder bdev disk s

/-! ## Recording the host calls -/

/-- The host `H` with a call log: every entry point behaves as in `H` on the
first component and appends the call it received to the second. -/
def traced {σ : Type} (H : Host σ) : Host (σ × List HostCall) where
  FMODE_EXCL := H.FMODE_EXCL
  blkdev_get_by_path := fun path mode holder st =>
    ((H.blkdev_get_by_path path mode holder st.1).1,
     ((H.blkdev_get_by_path path mode holder st.1).2,
      st.2 ++ [HostCall.get_by_path path mode holder]))
  blkdev_put := fun bdev mode st =>
    (H.blkdev_put bdev mode st.1, st.2 ++ [HostCall.put bdev mode])
  bd_link_disk_holder := fun bdev disk st =>
    ((H.bd_link_disk_holder bdev disk st.1).1,
     ((H.bd_link_disk_holder bdev disk st.1).2,
      st.2 ++ [HostCall.link_disk_holder bdev disk]))
  bd_unlink_disk_holder := fun bdev disk st =>
    (H.bd_unlink_disk_holder bdev disk st.1, st.2 ++ [HostCall.unlink_disk_holder bdev disk])

/-- Whether a host call is a `blkdev_put`. -/
def HostCall.isPut : HostCall → Bool
  | HostCall.put _ _ => true
  | _ => false

/-! ## The request-function return convention -/

/-- The three arms of the `#if / #elif / #else` chain on `LINUX_VERSION_CODE`. -/
inductive RqBranch where
  | ge_4_3_0
  | ge_3_2_0
  | older
  deriving DecidableEq

/-- The arm selected for a version code: `#if LINUX_VERSION_CODE >= KERNEL_VERSION(4, 3, 0)`,
`#elif LINUX_VERSION_CODE >= KERNEL_VERSION(3, 2, 0)`, `#else`.  `KERNEL_VERSION` is the
host's encoding of a version triple (`linux/version.h`), a parameter here. -/
def rq_branch (KERNEL_VERSION : Nat → Nat → Nat → Nat) (LINUX_VERSION_CODE : Nat) : RqBranch :=
  if LINUX_VERSION_CODE ≥ KERNEL_VERSION 4 3 0 then RqBranch.ge_4_3_0
  else if LINUX_VERSION_CODE ≥ KERNEL_VERSION 3 2 0 then RqBranch.ge_3_2_0
  else RqBranch.older

/-- The C types `MAKE_RQ_RET_TYPE` can expand to. -/
inductive RqRetType where
  | blk_qc_t
  | void
  | int
  deriving DecidableEq

/-- What `KRETURN(x)` expands to: `({ return (x); })`, which returns the value
`x`, or a bare `return`, which returns no value. -/
inductive ReturnStmt (α : Type) where
  | value (x : α)
  | bare
  deriving DecidableEq

/-- `#define KRETURN(x)` in each arm. -/
def KRETURN {α : Type} (KERNEL_VERSION : Nat → Nat → Nat → Nat) (LINUX_VERSION_CODE : Nat)
    (x : α) : ReturnStmt α :=
  match rq_branch KERNEL_VERSION LINUX_VERSION_CODE with
  | RqBranch.ge_4_3_0 => ReturnStmt.value x
  | RqBranch.ge_3_2_0 => ReturnStmt.bare
  | RqBranch.older => ReturnStmt.value x

/-- `#define MAKE_RQ_RET_TYPE` in each arm. -/
def MAKE_RQ_RET_TYPE (KERNEL_VERSION : Nat → Nat → Nat → Nat) (LINUX_VERSION_CODE : Nat) :
    RqRetType :=
  match rq_branch KERNEL_VERSION LINUX_VERSION_CODE with
  | RqBranch.ge_4_3_0 => RqRetType.blk_qc_t
  | RqBranch.ge_3_2_0 => RqRetType.void
  | RqBranch.older => RqRetType.int

/-- The version encoding of the Linux headers, `(a << 16) + (b << 8) + c`, used
to instantiate the parameter `KERNEL_VERSION`. -/
def linux_kernel_version (a b c : Nat) : Nat := a * 65536 + b * 256 + c

/-! ## The registry -/

/-- Modelled from the spec: the fixed-capacity object pool behind a
`struct kmem_cache *` of the module (the pool code is not in this header).
"Each pool pre-sizes storage for its entity kind": `capacity` slots, numbered
from zero; `used` is the pool occupancy, the slots currently handed out. -/
structure Pool where
  capacity : Nat
  used : List Nat
  deriving DecidableEq

/-- Modelled from the spec: `acquire() -> slot | Fails(PoolExhausted)` of the
object pools (not in this header).  Hands out the lowest free slot, `none`
when every slot is in use. -/
def Pool.acquire (p : Pool) : Option (Nat × Pool) :=
  match (List.range p.capacity).find? (fun i => decide (i ∉ p.used)) with
  | none => none
  | some slot => some (slot, { p with used := slot :: p.used })

/-- Modelled from the spec: `release(slot)` of the object pools (not in this
header): the slot is returned to the pool. -/
def Pool.release (p : Pool) (slot : Nat) : Pool :=
  { p with used := p.used.erase slot }

/-- Modelled from the spec: the Device record of the data model (its C struct
is not in this header): `id`, `handle`, `holder_token`, and what release needs
beside them, the access `mode` of the claim (`release(handle, mode)`).
`exp_objs` counts the live ExportedObjects whose back-reference is this Device.
The holder token is the pool slot of the record itself. -/
structure Device where
  id : Nat
  handle : Nat
  holder_token : Nat
  mode : fmode_t
  exp_objs : Nat
  deriving DecidableEq

/-- The module-wide state `struct casdsk_module`, field by field: `disk_list`,
`next_disk_id` (a `uint32_t`), `disk_major`, `next_minor`, the two caches and
the kobject, which is the root of the namespace tree (the identifiers of the
published device nodes).  The mutex is not a field: the operations below are
atomic transitions. -/
structure casdsk_module where
  disk_list : List Device
  next_disk_id : Nat
  disk_major : Int
  next_minor : Int
  disk_cache : Pool
  exp_obj_cache : Pool
  kobj : List Nat
  deriving DecidableEq

/-- The largest value of a `uint32_t`. -/
def UINT32_MAX : Nat := 4294967295

/-- Modelled from the spec: the error taxonomy of the registry operations
(section 7); a claim error carries the errno the host reported. -/
inductive RegError where
  | ClaimError (errno : Int)
  | PoolExhausted
  | IdExhausted
  | NotFound
  | HasActiveExportedObjects
  deriving DecidableEq

/-- Modelled from the spec: `allocate() -> id` of the Identifier Allocator (not
in this header), on the `uint32_t` counter `next_disk_id`.  Returns the
identifier issued and the advanced counter; "allocation fails (Exhausted) only
at the numeric range boundary", that is when the counter cannot advance without
wrapping. -/
def allocate (next_disk_id : Nat) : Option (Nat × Nat) :=
  if next_disk_id ≥ UINT32_MAX then none
  else some (next_disk_id, (next_disk_id + 1) % 2 ^ 32)

/-- Modelled from the spec: `register_device(path, mode)` of the Registry (its
C function is not in this header).  "Sequence: acquire pool slot → claim device
→ assign id → insert into devices → publish namespace entry.  Any step after a
successful claim that subsequently fails must unwind all prior steps, including
releasing the claim, before returning the error."  The claim is taken with
`open_bdev_exclusive` under the acquired slot as holder and released with
`close_bdev_exclusive`; a namespace name collision does not roll back. -/
def register_device {σ : Type} (H : Host σ) (path : String) (mode : fmode_t)
    (st : casdsk_module × σ) : Except RegError Nat × (casdsk_module × σ) :=
  match st.1.disk_cache.acquire with
  | none => (Except.error RegError.PoolExhausted, st)
  | some (slot, cache) =>
    match open_bdev_exclusive H path mode slot st.2 with
    | (Except.error e, s1) =>
      (Except.error (RegError.ClaimError e),
       ({ st.1 with disk_cache := cache.release slot }, s1))
    | (Except.ok bdev, s1) =>
      match allocate st.1.next_disk_id with
      | none =>
        (Except.error RegError.IdExhausted,
         ({ st.1 with disk_cache := cache.release slot },
          close_bdev_exclusive H bdev mode s1))
      | some (id, next) =>
        (Except.ok id,
         ({ st.1 with
              disk_cache := cache
              next_disk_id := next
              disk_list := st.1.disk_list ++ [Device.mk id bdev slot mode 0]
              kobj := if id ∈ st.1.kobj then st.1.kobj else st.1.kobj ++ [id] },
          s1))

/-- Modelled from the spec: `unregister_device(id)` of the Registry (its C
function is not in this header).  Fails with `NotFound` for an unknown id and
with `HasActiveExportedObjects` while an ExportedObject references the Device.
"On success: remove namespace entry → remove from devices → unlink holder →
release claim → return pool slot."  The holder link is removed under the
Device's holder token, "the identity under which the exclusive claim and
holder-link were established". -/
def unregister_device {σ : Type} (H : Host σ) (id : Nat)
    (st : casdsk_module × σ) : Except RegError Unit × (casdsk_module × σ) :=
  match st.1.disk_list.find? (fun d => d.id == id) with
  | none => (Except.error RegError.NotFound, st)
  | some dev =>
    if dev.exp_objs ≠ 0 then (Except.error RegError.HasActiveExportedObjects, st)
    else
      (Except.ok (),
       ({ st.1 with
            kobj := st.1.kobj.erase id
            disk_list := st.1.disk_list.filter (fun d => d.id != id)
            disk_cache := st.1.disk_cache.release dev.holder_token },
        close_bdev_exclusive H dev.handle dev.mode
          (bd_release_from_disk H dev.handle dev.holder_token st.2)))

/-- A request to the registry. -/
inductive RegOp where
  | register (path : String) (mode : fmode_t)
  | unregister (id : Nat)
  deriving DecidableEq

/-- Runs a sequence of registry requests in order; returns the identifiers
issued, oldest first, and the final state. -/
def run_ops {σ : Type} (H : Host σ) :
    List RegOp → casdsk_module × σ → List Nat × (casdsk_module × σ)
  | [], st => ([], st)
  | RegOp.register path mode :: ops, st =>
    match (register_device H path mode st).1 with
    | Except.ok id =>
      (id :: (run_ops H ops (register_device H path mode st).2).1,
       (run_ops H ops (register_device H path mode st).2).2)
    | Except.error _ => run_ops H ops (register_device H path mode st).2
  | RegOp.unregister id :: ops, st => run_ops H ops (unregister_device H id st).2

/-! ## A small concrete host -/

/-- State of the example host: the exclusive claims held, as (device, holder)
pairs, and the holder relation, as (device, disk) pairs. -/
structure SimState where
  claimed : List (Nat × Nat)
  links : Finset (Nat × Nat)
  deriving DecidableEq

/-- Path resolution of the example host: two devices exist. -/
def simResolve (path : String) : Option Nat :=
  if path = "/dev/a" then some 1 else if path = "/dev/b" then some 2 else none

/-- An example host with exclusive opens: an open fails with `-ENOENT` (-2)
when the path does not resolve and with `-EBUSY` (-16) when the device is
claimed; a put drops the claim; link and unlink insert into and remove from the
holder relation. -/
def simHost : Host SimState where
  FMODE_EXCL := 128
  blkdev_get_by_path := fun path mode holder s =>
    match simResolve path with
    | none => (Except.error (-2), s)
    | some b =>
      if s.claimed.any (fun c => c.1 == b) then (Except.error (-16), s)
      else (Except.ok b, { s with claimed := (b, holder) :: s.claimed })
  blkdev_put := fun bdev mode s =>
    { s with claimed := s.claimed.filter (fun c => c.1 != bdev) }
  bd_link_disk_holder := fun bdev disk s =>
    if (bdev, disk) ∈ s.links then (-16, s)
    else (0, { s with links := insert (bdev, disk) s.links })
  bd_unlink_disk_holder := fun bdev disk s =>
    { s with links := s.links.erase (bdev, disk) }

/-- The example host with nothing claimed and nothing linked. -/
def simInit : SimState := { claimed := [], links := ∅ }

/-- An example host whose holder-link call always fails with `-EBUSY`. -/
def linkFailHost : Host Unit where
  FMODE_EXCL := 128
  blkdev_get_by_path := fun path mode holder s => (Except.ok 7, s)
  blkdev_put := fun bdev mode s => s
  bd_link_disk_holder := fun bdev disk s => (-16, s)
  bd_unlink_disk_holder := fun bdev disk s => s

/-- Modelled from the spec: the registry right after `init()` with given pool
capacities; the first identifier issued is 1 (section 8: `a(id=1), b(id=2)`). -/
def casdsk_init (disk_capacity exp_obj_capacity : Nat) : casdsk_module :=
  { disk_list := []
    next_disk_id := 1
    disk_major := 0
    next_minor := 0
    disk_cache := { capacity := disk_capacity, used := [] }
    exp_obj_cache := { capacity := exp_obj_capacity, used := [] }
    kobj := [] }

/-- A registry whose identifier counter stands at the end of the 32-bit range. -/
def exhaustedIds : casdsk_module :=
  { casdsk_init 2 2 with next_disk_id := UINT32_MAX }

/-! ## Helper lemmas -/

/-- Unfolding `open_bdev_exclusive` on a traced host. -/
theorem open_traced {σ : Type} (H : Host σ) (path : String) (mode : fmode_t) (holder : Nat)
    (s : σ) (log : List HostCall) :
    open_bdev_exclusive (traced H) path mode holder (s, log) =
      ((H.blkdev_get_by_path path (mode ||| H.FMODE_EXCL) holder s).1,
       ((H.blkdev_get_by_path path (mode ||| H.FMODE_EXCL) holder s).2,
        log ++ [HostCall.get_by_path path (mode ||| H.FMODE_EXCL) holder])) := rfl

/-- Unfolding `close_bdev_exclusive` on a traced host. -/
theorem close_traced {σ : Type} (H : Host σ) (bdev : Nat) (mode : fmode_t)
    (s : σ) (log : List HostCall) :
    close_bdev_exclusive (traced H) bdev mode (s, log) =
      (H.blkdev_put bdev (mode ||| H.FMODE_EXCL) s,
       log ++ [HostCall.put bdev (mode ||| H.FMODE_EXCL)]) := rfl

/-- Unfolding `bd_claim_by_disk` on a traced host. -/
theorem claim_traced {σ : Type} (H : Host σ) (bdev holder disk : Nat)
    (s : σ) (log : List HostCall) :
    bd_claim_by_disk (traced H) bdev holder disk (s, log) =
      ((H.bd_link_disk_holder bdev disk s).1,
       ((H.bd_link_disk_holder bdev disk s).2,
        log ++ [HostCall.link_disk_holder bdev disk])) := rfl

/-- Unfolding `bd_release_from_disk` on a traced host. -/
theorem release_traced {σ : Type} (H : Host σ) (bdev disk : Nat)
    (s : σ) (log : List HostCall) :
    bd_release_from_disk (traced H) bdev disk (s, log) =
      (H.bd_unlink_disk_holder bdev disk s,
       log ++ [HostCall.unlink_disk_holder bdev disk]) := rfl

/-- The example host: a failed open changes nothing. -/
theorem simHost_open_fail (path : String) (m : fmode_t) (holder : Nat) (s : SimState)
    (e : Int) (s1 : SimState)
    (h : simHost.blkdev_get_by_path path m holder s = (Except.error e, s1)) :
    s1.claimed = s.claimed := by
  simp only [simHost] at h
  split at h
  · simp only [Prod.mk.injEq] at h
    rw [← h.2]
  · split at h
    · simp only [Prod.mk.injEq] at h
      rw [← h.2]
    · simp at h

/-- The example host: a put of the handle an open returned undoes the open. -/
theorem simHost_put_undoes (path : String) (m : fmode_t) (holder : Nat) (s : SimState)
    (bdev : Nat) (s1 : SimState)
    (h : simHost.blkdev_get_by_path path m holder s = (Except.ok bdev, s1)) :
    (simHost.blkdev_put bdev m s1).claimed = s.claimed := by
  simp only [simHost] at h
  split at h
  · simp at h
  · split at h
    · simp at h
    · rename_i b hb hany
      simp only [Prod.mk.injEq, Except.ok.injEq] at h
      obtain ⟨hbd, hs⟩ := h
      subst hbd
      subst hs
      simp only [simHost, List.filter_cons, bne_self_eq_false, Bool.false_eq_true, if_false]
      rw [List.filter_eq_self]
      intro c hc
      simp only [Bool.not_eq_true, List.any_eq_false] at hany
      have := hany c hc
      simpa using this

/-- The example host: a successful link inserts the pair. -/
theorem simHost_link_inserts (b d : Nat) (s : SimState)
    (h : (simHost.bd_link_disk_holder b d s).1 = 0) :
    (simHost.bd_link_disk_holder b d s).2.links = insert (b, d) s.links := by
  simp only [simHost] at h ⊢
  split
  · rename_i hmem
    simp [hmem] at h
  · rfl

/-- The example host: unlink removes the pair. -/
theorem simHost_unlink_erases (b d : Nat) (s : SimState) :
    (simHost.bd_unlink_disk_holder b d s).links = s.links.erase (b, d) := rfl

/-- Releasing the slot just acquired restores the pool. -/
theorem Pool.release_acquire (p : Pool) (slot : Nat) (q : Pool)
    (h : p.acquire = some (slot, q)) : q.release slot = p := by
  unfold Pool.acquire at h
  split at h
  · simp at h
  · simp only [Option.some.injEq, Prod.mk.injEq] at h
    obtain ⟨h1, h2⟩ := h
    subst h1
    subst h2
    simp [Pool.release]

/-! ## The device-claim adapter -/

/-- C1: `open_bdev_exclusive(path, mode, holder)` opens with exclusive
semantics.  Its only effect is the host open with `path` and `holder`
unchanged and the mode `mode | FMODE_EXCL`; in that mode every bit of
`FMODE_EXCL` is set whatever the caller passed, and every bit is set exactly
when the caller set it or it is a bit of `FMODE_EXCL`, so all other bits are
the caller's. -/
theorem open_bdev_exclusive_effective_mode {σ : Type} (H : Host σ) (path : String)
    (mode : fmode_t) (holder : Nat) (s : σ) (log : List HostCall) :
    open_bdev_exclusive H path mode holder s =
        H.blkdev_get_by_path path (mode ||| H.FMODE_EXCL) holder s
      ∧ (open_bdev_exclusive (traced H) path mode holder (s, log)).2.2 =
          log ++ [HostCall.get_by_path path (mode ||| H.FMODE_EXCL) holder]
      ∧ (mode ||| H.FMODE_EXCL) &&& H.FMODE_EXCL = H.FMODE_EXCL
      ∧ ∀ i : Nat, (mode ||| H.FMODE_EXCL).testBit i =
          (mode.testBit i || H.FMODE_EXCL.testBit i) := by
  refine ⟨rfl, rfl, ?_, ?_⟩
  · apply Nat.eq_of_testBit_eq
    intro i
    rw [Nat.testBit_and, Nat.testBit_or]
    cases mode.testBit i <;> cases H.FMODE_EXCL.testBit i <;> rfl
  · intro i
    exact Nat.testBit_or mode H.FMODE_EXCL i

/-- C2 (as stated, refuted): on the example host, with device 1 claimed by
holder 5 and already linked to disk 9, the host link call fails with -16;
`bd_claim_by_disk` returns -16 having made the link call only: no put is
performed and the claim of holder 5 on device 1 is still held afterwards. -/
theorem bd_claim_by_disk_failure_keeps_claim :
    bd_claim_by_disk (traced simHost) 1 5 9
        ({ claimed := [(1, 5)], links := {(1, 9)} }, []) =
      (-16, ({ claimed := [(1, 5)], links := {(1, 9)} }, [HostCall.link_disk_holder 1 9]))
    ∧ (bd_claim_by_disk (traced simHost) 1 5 9
        ({ claimed := [(1, 5)], links := {(1, 9)} }, [])).2.2.any HostCall.isPut = false := by
  decide

/-- C2 (amended): `bd_claim_by_disk(bdev, holder, disk)` makes exactly one host
call, `bd_link_disk_holder(bdev, disk)`, and returns its result; whether or not
that call fails no `blkdev_put` is made, so the claim is not released by it.
The release is the separate operation `close_bdev_exclusive`, whose one host
call is the put. -/
theorem bd_claim_by_disk_only_links {σ : Type} (H : Host σ) (bdev holder disk : Nat)
    (mode : fmode_t) (s : σ) (log : List HostCall) :
    bd_claim_by_disk (traced H) bdev holder disk (s, log) =
        ((H.bd_link_disk_holder bdev disk s).1,
         ((H.bd_link_disk_holder bdev disk s).2,
          log ++ [HostCall.link_disk_holder bdev disk]))
      ∧ (bd_claim_by_disk (traced H) bdev holder disk (s, [])).2.2.any HostCall.isPut = false
      ∧ (close_bdev_exclusive (traced H) bdev mode (s, [])).2 =
          [HostCall.put bdev (mode ||| H.FMODE_EXCL)] := by
  refine ⟨rfl, ?_, rfl⟩
  rw [claim_traced]
  rfl

/-- C3: release mirrors claim.  `close_bdev_exclusive(bdev, m)` makes exactly
one host call, the put of `bdev` with mode `m | FMODE_EXCL`, the mode
`open_bdev_exclusive(path, m, holder)` gave the host open; hence on a host whose
put, with the mode used at open, restores the claim state the open found,
claim followed by release leaves the claim state as it was. -/
theorem close_bdev_exclusive_mirrors_open {σ κ : Type} (H : Host σ) (claims : σ → κ)
    (hundo : ∀ (path : String) (m : fmode_t) (holder : Nat) (s : σ) (bdev : Nat) (s1 : σ),
      H.blkdev_get_by_path path m holder s = (Except.ok bdev, s1) →
        claims (H.blkdev_put bdev m s1) = claims s)
    (path : String) (mode : fmode_t) (holder : Nat) (s : σ) (bdev : Nat) (s1 : σ)
    (log : List HostCall)
    (hopen : open_bdev_exclusive H path mode holder s = (Except.ok bdev, s1)) :
    (open_bdev_exclusive (traced H) path mode holder (s, log)).2.2 =
        log ++ [HostCall.get_by_path path (mode ||| H.FMODE_EXCL) holder]
      ∧ close_bdev_exclusive (traced H) bdev mode (s1, log) =
          (H.blkdev_put bdev (mode ||| H.FMODE_EXCL) s1,
           log ++ [HostCall.put bdev (mode ||| H.FMODE_EXCL)])
      ∧ claims (close_bdev_exclusive H bdev mode s1) = claims s :=
  ⟨rfl, rfl, hundo path (mode ||| H.FMODE_EXCL) holder s bdev s1 hopen⟩

/-- Witness for C3 on the example host: device `/dev/a` is claimed in mode 3
by holder 0 and released again. -/
theorem close_bdev_exclusive_mirrors_open_witness :
    open_bdev_exclusive simHost "/dev/a" 3 0 simInit =
        (Except.ok 1, { claimed := [(1, 0)], links := ∅ })
      ∧ close_bdev_exclusive (traced simHost) 1 3 ({ claimed := [(1, 0)], links := ∅ }, []) =
          (simInit, [HostCall.put 1 131])
      ∧ (close_bdev_exclusive simHost 1 3 { claimed := [(1, 0)], links := ∅ }).claimed =
          simInit.claimed :=
  ⟨by decide, by decide,
   (close_bdev_exclusive_mirrors_open simHost (fun s => s.claimed) simHost_put_undoes
      "/dev/a" 3 0 simInit 1 { claimed := [(1, 0)], links := ∅ } [] (by decide)).2.2⟩

/-- C4: claim and link errors are surfaced verbatim and never retried.
`open_bdev_exclusive` makes exactly one host call, the open, and returns the
host's result unchanged (any error is the host's error); `bd_claim_by_disk`
makes exactly one host call, the holder link, and returns its integer result
unchanged (zero exactly when the host returned zero). -/
theorem adapter_results_verbatim {σ : Type} (H : Host σ) (path : String) (mode : fmode_t)
    (holder bdev disk : Nat) (s : σ) (log : List HostCall) :
    (open_bdev_exclusive (traced H) path mode holder (s, log)).1 =
        (H.blkdev_get_by_path path (mode ||| H.FMODE_EXCL) holder s).1
      ∧ (open_bdev_exclusive (traced H) path mode holder (s, log)).2.1 =
        (H.blkdev_get_by_path path (mode ||| H.FMODE_EXCL) holder s).2
      ∧ (open_bdev_exclusive (traced H) path mode holder (s, [])).2.2 =
        [HostCall.get_by_path path (mode ||| H.FMODE_EXCL) holder]
      ∧ (∀ e : Int, (open_bdev_exclusive H path mode holder s).1 = Except.error e ↔
          (H.blkdev_get_by_path path (mode ||| H.FMODE_EXCL) holder s).1 = Except.error e)
      ∧ (bd_claim_by_disk (traced H) bdev holder disk (s, log)).1 =
        (H.bd_link_disk_holder bdev disk s).1
      ∧ (bd_claim_by_disk (traced H) bdev holder disk (s, log)).2.1 =
        (H.bd_link_disk_holder bdev disk s).2
      ∧ (bd_claim_by_disk (traced H) bdev holder disk (s, [])).2.2 =
        [HostCall.link_disk_holder bdev disk]
      ∧ ((bd_claim_by_disk H bdev holder disk s).1 = 0 ↔
          (H.bd_link_disk_holder bdev disk s).1 = 0) :=
  ⟨rfl, rfl, rfl, fun _ => Iff.rfl, rfl, rfl, rfl, Iff.rfl⟩

/-- C5 (as stated, refuted): on the example host, linking device 1 to disk 9
under holder 5 and under holder 6 gives the same result, the same host state
and the same single host call, which carries no holder: the link is not
established under the holder passed to `bd_claim_by_disk`. -/
theorem bd_claim_by_disk_ignores_holder :
    bd_claim_by_disk (traced simHost) 1 5 9 (simInit, []) =
        bd_claim_by_disk (traced simHost) 1 6 9 (simInit, [])
      ∧ bd_claim_by_disk (traced simHost) 1 5 9 (simInit, []) =
        (0, ({ claimed := [], links := {(1, 9)} }, [HostCall.link_disk_holder 1 9]))
      ∧ (5 : Nat) ≠ 6 := by
  decide

/-- C5 (amended): the holder passed to `open_bdev_exclusive` is the holder
given to the host open; `bd_claim_by_disk` does not use its holder (result,
host state and host call are the same for any two holders); and the release
operations take no holder: `close_bdev_exclusive` gives the host put the handle
and `mode | FMODE_EXCL`, `bd_release_from_disk` gives the host unlink the
handle and the disk. -/
theorem holder_use_in_adapter {σ : Type} (H : Host σ) (path : String) (mode : fmode_t)
    (holder holder2 bdev disk : Nat) (s : σ) (log : List HostCall) :
    (open_bdev_exclusive (traced H) path mode holder (s, log)).2.2 =
        log ++ [HostCall.get_by_path path (mode ||| H.FMODE_EXCL) holder]
      ∧ bd_claim_by_disk (traced H) bdev holder disk (s, log) =
        bd_claim_by_disk (traced H) bdev holder2 disk (s, log)
      ∧ close_bdev_exclusive (traced H) bdev mode (s, log) =
        (H.blkdev_put bdev (mode ||| H.FMODE_EXCL) s,
         log ++ [HostCall.put bdev (mode ||| H.FMODE_EXCL)])
      ∧ bd_release_from_disk (traced H) bdev disk (s, log) =
        (H.bd_unlink_disk_holder bdev disk s,
         log ++ [HostCall.unlink_disk_holder bdev disk]) :=
  ⟨rfl, rfl, rfl, rfl⟩

/-- C6: link and unlink act on the same pair.  `bd_claim_by_disk(bdev, holder,
disk)` links exactly `(bdev, disk)` and `bd_release_from_disk(bdev, disk)`
unlinks exactly `(bdev, disk)`, arguments in the same order; hence on a host
whose holder relation is a set of pairs that a successful link inserts into and
unlink removes from, a successful link followed by unlink, on a pair not linked
before, leaves the holder relation as it was. -/
theorem link_unlink_same_pair {σ : Type} (H : Host σ) (rel : σ → Finset (Nat × Nat))
    (hlink : ∀ (b d : Nat) (s : σ), (H.bd_link_disk_holder b d s).1 = 0 →
      rel (H.bd_link_disk_holder b d s).2 = insert (b, d) (rel s))
    (hunlink : ∀ (b d : Nat) (s : σ),
      rel (H.bd_unlink_disk_holder b d s) = (rel s).erase (b, d))
    (bdev holder disk : Nat) (s : σ) (log : List HostCall)
    (hnew : (bdev, disk) ∉ rel s)
    (hok : (bd_claim_by_disk H bdev holder disk s).1 = 0) :
    (bd_claim_by_disk (traced H) bdev holder disk (s, log)).2.2 =
        log ++ [HostCall.link_disk_holder bdev disk]
      ∧ (bd_release_from_disk (traced H) bdev disk (s, log)).2 =
        log ++ [HostCall.unlink_disk_holder bdev disk]
      ∧ rel (bd_claim_by_disk H bdev holder disk s).2 = insert (bdev, disk) (rel s)
      ∧ rel (bd_release_from_disk H bdev disk (bd_claim_by_disk H bdev holder disk s).2) =
        rel s := by
  refine ⟨rfl, rfl, hlink bdev disk s hok, ?_⟩
  show rel (H.bd_unlink_disk_holder bdev disk (H.bd_link_disk_holder bdev disk s).2) = rel s
  rw [hunlink, hlink bdev disk s hok]
  exact Finset.erase_insert hnew

/-- Witness for C6 on the example host: device 1 is linked to disk 9 and
unlinked again, next to an existing link of device 2. -/
theorem link_unlink_same_pair_witness :
    ((1, 9) : Nat × Nat) ∉ ({(2, 9)} : Finset (Nat × Nat))
      ∧ (bd_claim_by_disk simHost 1 5 9 { claimed := [], links := {(2, 9)} }).1 = 0
      ∧ (bd_release_from_disk simHost 1 9
          (bd_claim_by_disk simHost 1 5 9 { claimed := [], links := {(2, 9)} }).2).links =
        {(2, 9)} :=
  ⟨by decide, by decide,
   (link_unlink_same_pair simHost (fun s => s.links) simHost_link_inserts
      simHost_unlink_erases 1 5 9 { claimed := [], links := {(2, 9)} } []
      (by decide) (by decide)).2.2.2⟩

/-! ## The request-function return convention -/

/-- C10: the selection of the return convention is total and consistent.  For a
version encoding that orders 3.2.0 before 4.3.0, every version code lies in
exactly one of the three version ranges and selects the arm of that range;
`KRETURN(x)` returns the value `x` exactly when `MAKE_RQ_RET_TYPE` is not
`void` and is a bare `return` exactly when it is `void`; the type is `blk_qc_t`
exactly for versions >= 4.3.0, `int` exactly for versions < 3.2.0 and `void`
exactly for 3.2.0 <= version < 4.3.0. -/
theorem rq_return_convention_consistent {α : Type} (KERNEL_VERSION : Nat → Nat → Nat → Nat)
    (hord : KERNEL_VERSION 3 2 0 ≤ KERNEL_VERSION 4 3 0) (v : Nat) (x : α) :
    ((KERNEL_VERSION 4 3 0 ≤ v ∧ rq_branch KERNEL_VERSION v = RqBranch.ge_4_3_0)
        ∨ (KERNEL_VERSION 3 2 0 ≤ v ∧ v < KERNEL_VERSION 4 3 0
            ∧ rq_branch KERNEL_VERSION v = RqBranch.ge_3_2_0)
        ∨ (v < KERNEL_VERSION 3 2 0 ∧ rq_branch KERNEL_VERSION v = RqBranch.older))
      ∧ (KRETURN KERNEL_VERSION v x = ReturnStmt.value x ↔
          MAKE_RQ_RET_TYPE KERNEL_VERSION v ≠ RqRetType.void)
      ∧ (KRETURN KERNEL_VERSION v x = ReturnStmt.bare ↔
          MAKE_RQ_RET_TYPE KERNEL_VERSION v = RqRetType.void)
      ∧ (MAKE_RQ_RET_TYPE KERNEL_VERSION v = RqRetType.blk_qc_t ↔ KERNEL_VERSION 4 3 0 ≤ v)
      ∧ (MAKE_RQ_RET_TYPE KERNEL_VERSION v = RqRetType.int ↔ v < KERNEL_VERSION 3 2 0)
      ∧ (MAKE_RQ_RET_TYPE KERNEL_VERSION v = RqRetType.void ↔
          (KERNEL_VERSION 3 2 0 ≤ v ∧ v < KERNEL_VERSION 4 3 0)) := by
  unfold KRETURN MAKE_RQ_RET_TYPE rq_branch
  by_cases h1 : v ≥ KERNEL_VERSION 4 3 0
  · have h2 : ¬ v < KERNEL_VERSION 3 2 0 := by omega
    have h3 : ¬ v < KERNEL_VERSION 4 3 0 := by omega
    simp [h1, h2, h3]
  · by_cases h2 : v ≥ KERNEL_VERSION 3 2 0
    · have h3 : ¬ v < KERNEL_VERSION 3 2 0 := by omega
      have h4 : v < KERNEL_VERSION 4 3 0 := by omega
      simp [h1, h2, h3, h4]
    · have h3 : v < KERNEL_VERSION 3 2 0 := by omega
      have h4 : v < KERNEL_VERSION 4 3 0 := by omega
      simp [h1, h2, h3]

/-- Witness for C10 with the version encoding of the Linux headers, at the
version code of 3.10.0, where the request function is `void`. -/
theorem rq_return_convention_consistent_witness :
    linux_kernel_version 3 2 0 ≤ linux_kernel_version 4 3 0
      ∧ (KRETURN linux_kernel_version (linux_kernel_version 3 10 0) (7 : Nat) =
            ReturnStmt.bare ↔
          MAKE_RQ_RET_TYPE linux_kernel_version (linux_kernel_version 3 10 0) =
            RqRetType.void)
      ∧ MAKE_RQ_RET_TYPE linux_kernel_version (linux_kernel_version 3 10 0) = RqRetType.void :=
  ⟨by decide,
   (rq_return_convention_consistent linux_kernel_version (by decide)
      (linux_kernel_version 3 10 0) (7 : Nat)).2.2.1,
   by decide⟩

/-! ## The registry -/

/-- The three ways `register_device` fails, each with the state it leaves. -/
theorem register_device_error_cases {σ : Type} (H : Host σ) (path : String) (mode : fmode_t)
    (st : casdsk_module × σ) (e : RegError)
    (herr : (register_device H path mode st).1 = Except.error e) :
    (e = RegError.PoolExhausted ∧ register_device H path mode st = (Except.error e, st))
      ∨ (∃ (slot : Nat) (errno : Int) (s1 : σ),
          open_bdev_exclusive H path mode slot st.2 = (Except.error errno, s1)
            ∧ e = RegError.ClaimError errno
            ∧ register_device H path mode st = (Except.error e, (st.1, s1)))
      ∨ (∃ (slot bdev : Nat) (s1 : σ),
          open_bdev_exclusive H path mode slot st.2 = (Except.ok bdev, s1)
            ∧ UINT32_MAX ≤ st.1.next_disk_id
            ∧ e = RegError.IdExhausted
            ∧ register_device H path mode st =
                (Except.error e, (st.1, close_bdev_exclusive H bdev mode s1))) := by
  unfold register_device at herr ⊢
  cases hacq : st.1.disk_cache.acquire with
  | none =>
    rw [hacq] at herr
    simp only [Except.error.injEq] at herr
    subst herr
    left
    exact ⟨rfl, rfl⟩
  | some sc =>
    obtain ⟨slot, cache⟩ := sc
    rw [hacq] at herr
    have hrel : cache.release slot = st.1.disk_cache := Pool.release_acquire _ _ _ hacq
    simp only [hrel] at herr ⊢
    cases hopen : open_bdev_exclusive H path mode slot st.2 with
    | mk r s1 =>
      rw [hopen] at herr
      cases r with
      | error errno =>
        simp only [Except.error.injEq] at herr
        subst herr
        right; left
        exact ⟨slot, errno, s1, hopen, rfl, rfl⟩
      | ok bdev =>
        cases halloc : allocate st.1.next_disk_id with
        | none =>
          rw [halloc] at herr
          simp only [Except.error.injEq] at herr
          subst herr
          right; right
          refine ⟨slot, bdev, s1, hopen, ?_, rfl, rfl⟩
          unfold allocate at halloc
          split at halloc
          · assumption
          · simp at halloc
        | some ia =>
          rw [halloc] at herr
          simp at herr

/-- A successful `register_device` issues the counter value and advances the
counter by one, without wrapping. -/
theorem register_device_ok_cases {σ : Type} (H : Host σ) (path : String) (mode : fmode_t)
    (st : casdsk_module × σ) (id : Nat)
    (hok : (register_device H path mode st).1 = Except.ok id) :
    id = st.1.next_disk_id ∧ st.1.next_disk_id < UINT32_MAX
      ∧ (register_device H path mode st).2.1.next_disk_id = st.1.next_disk_id + 1 := by
  unfold register_device at hok ⊢
  cases hacq : st.1.disk_cache.acquire with
  | none =>
    rw [hacq] at hok
    simp at hok
  | some sc =>
    obtain ⟨slot, cache⟩ := sc
    rw [hacq] at hok
    simp only at hok ⊢
    cases hopen : open_bdev_exclusive H path mode slot st.2 with
    | mk r s1 =>
      rw [hopen] at hok
      cases r with
      | error errno => simp at hok
      | ok bdev =>
        cases halloc : allocate st.1.next_disk_id with
        | none =>
          rw [halloc] at hok
          simp at hok
        | some ia =>
          obtain ⟨i, a⟩ := ia
          rw [halloc] at hok
          simp only [Except.ok.injEq] at hok
          subst hok
          unfold allocate at halloc
          split at halloc
          · simp at halloc
          · rename_i hlt
            simp only [Option.some.injEq, Prod.mk.injEq] at halloc
            obtain ⟨h1, h2⟩ := halloc
            have hlt2 : st.1.next_disk_id < UINT32_MAX := by omega
            have hmax : UINT32_MAX = 4294967295 := rfl
            refine ⟨h1.symm, hlt2, ?_⟩
            show a = st.1.next_disk_id + 1
            rw [← h2]
            apply Nat.mod_eq_of_lt
            omega

/-- A failed `register_device` leaves the registry as it was. -/
theorem register_device_error_registry {σ : Type} (H : Host σ) (path : String)
    (mode : fmode_t) (st : casdsk_module × σ) (e : RegError)
    (herr : (register_device H path mode st).1 = Except.error e) :
    (register_device H path mode st).2.1 = st.1 := by
  rcases register_device_error_cases H path mode st e herr with
    ⟨_, h⟩ | ⟨_, _, _, _, _, h⟩ | ⟨_, _, _, _, _, _, h⟩ <;> rw [h]

/-- `unregister_device` never touches the identifier counter. -/
theorem unregister_device_counter {σ : Type} (H : Host σ) (id : Nat)
    (st : casdsk_module × σ) :
    (unregister_device H id st).2.1.next_disk_id = st.1.next_disk_id := by
  unfold unregister_device
  split
  · rfl
  · split <;> rfl

/-- Over a run, the counter never decreases, every identifier issued lies
between the counter before and the counter after, and the identifiers issued
are strictly increasing. -/
theorem run_ops_counter {σ : Type} (H : Host σ) (ops : List RegOp) :
    ∀ st : casdsk_module × σ,
      st.1.next_disk_id ≤ (run_ops H ops st).2.1.next_disk_id
        ∧ (∀ id ∈ (run_ops H ops st).1,
            st.1.next_disk_id ≤ id ∧ id < (run_ops H ops st).2.1.next_disk_id
              ∧ id < UINT32_MAX)
        ∧ List.Pairwise (fun a b => a < b) (run_ops H ops st).1
        ∧ (st.1.next_disk_id < 2 ^ 32 → (run_ops H ops st).2.1.next_disk_id < 2 ^ 32) := by
  induction ops with
  | nil =>
    intro st
    simp [run_ops]
  | cons op ops ih =>
    intro st
    have hmax : UINT32_MAX = 4294967295 := rfl
    cases op with
    | unregister id =>
      have hc := unregister_device_counter H id st
      have := ih (unregister_device H id st).2
      simp only [run_ops]
      rw [hc] at this
      exact this
    | register path mode =>
      simp only [run_ops]
      cases hres : (register_device H path mode st).1 with
      | error e =>
        have hreg := register_device_error_registry H path mode st e hres
        have := ih (register_device H path mode st).2
        rw [hreg] at this
        exact this
      | ok id =>
        obtain ⟨hid, hlt, hnext⟩ := register_device_ok_cases H path mode st id hres
        obtain ⟨h1, h2, h3, h4⟩ := ih (register_device H path mode st).2
        rw [hnext] at h1 h2 h4
        simp only
        refine ⟨by omega, ?_, ?_, ?_⟩
        · intro j hj
          rcases List.mem_cons.mp hj with hj | hj
          · subst hj
            omega
          · have := h2 j hj
            omega
        · refine List.Pairwise.cons ?_ h3
          intro j hj
          have := h2 j hj
          omega
        · intro _
          exact h4 (by omega)

/-- With the counter at or past the end of its range, `register_device`
fails with `IdExhausted` exactly when a slot was acquired and the claim
succeeded. -/
theorem register_device_exhausted_iff {σ : Type} (H : Host σ) (path : String)
    (mode : fmode_t) (st : casdsk_module × σ) (hfull : UINT32_MAX ≤ st.1.next_disk_id) :
    (∃ slot : Nat, (∃ cache : Pool, st.1.disk_cache.acquire = some (slot, cache))
        ∧ ∃ (bdev : Nat) (s1 : σ),
          open_bdev_exclusive H path mode slot st.2 = (Except.ok bdev, s1)) ↔
      (register_device H path mode st).1 = Except.error RegError.IdExhausted := by
  have halloc : allocate st.1.next_disk_id = none := by
    unfold allocate
    simp [hfull]
  unfold register_device
  cases hacq : st.1.disk_cache.acquire with
  | none => simp
  | some sc =>
    obtain ⟨slot, cache⟩ := sc
    simp only
    cases hopen : open_bdev_exclusive H path mode slot st.2 with
    | mk r s1 =>
      cases r with
      | error errno =>
        simp only [halloc]
        constructor
        · rintro ⟨slot2, ⟨cache2, hc⟩, bdev, s2, ho⟩
          simp only [Option.some.injEq, Prod.mk.injEq] at hc
          rw [← hc.1, hopen] at ho
          simp at ho
        · intro h
          simp at h
      | ok bdev =>
        simp only [halloc]
        constructor
        · intro _
          trivial
        · intro _
          exact ⟨slot, ⟨cache, rfl⟩, bdev, s1, hopen⟩

/-- C7: a failed registration is atomic.  Whenever `register_device` fails, the
error is a claim error, `PoolExhausted` or `IdExhausted`, and the registry after
the call is the registry before it: the device list, the occupancy of both
pools and the next-identifier counter are unchanged.  On a host where a failed
open leaves the claim state alone and a put with the mode of the open restores
it, the claim state after the call is the claim state before it: no claim on
the device remains held. -/
theorem register_device_failure_atomic {σ κ : Type} (H : Host σ) (claims : σ → κ)
    (hfail : ∀ (p : String) (m : fmode_t) (holder : Nat) (s : σ) (errno : Int) (s1 : σ),
      H.blkdev_get_by_path p m holder s = (Except.error errno, s1) → claims s1 = claims s)
    (hundo : ∀ (p : String) (m : fmode_t) (holder : Nat) (s : σ) (bdev : Nat) (s1 : σ),
      H.blkdev_get_by_path p m holder s = (Except.ok bdev, s1) →
        claims (H.blkdev_put bdev m s1) = claims s)
    (path : String) (mode : fmode_t) (st : casdsk_module × σ) (e : RegError)
    (herr : (register_device H path mode st).1 = Except.error e) :
    ((∃ errno : Int, e = RegError.ClaimError errno) ∨ e = RegError.PoolExhausted
        ∨ e = RegError.IdExhausted)
      ∧ (register_device H path mode st).2.1.disk_list = st.1.disk_list
      ∧ (register_device H path mode st).2.1.disk_cache = st.1.disk_cache
      ∧ (register_device H path mode st).2.1.exp_obj_cache = st.1.exp_obj_cache
      ∧ (register_device H path mode st).2.1.next_disk_id = st.1.next_disk_id
      ∧ (register_device H path mode st).2.1 = st.1
      ∧ claims (register_device H path mode st).2.2 = claims st.2 := by
  have hreg := register_device_error_registry H path mode st e herr
  refine ⟨?_, by rw [hreg], by rw [hreg], by rw [hreg], by rw [hreg], hreg, ?_⟩
  · rcases register_device_error_cases H path mode st e herr with
      ⟨h, _⟩ | ⟨_, errno, _, _, h, _⟩ | ⟨_, _, _, _, _, h, _⟩
    · exact Or.inr (Or.inl h)
    · exact Or.inl ⟨errno, h⟩
    · exact Or.inr (Or.inr h)
  · rcases register_device_error_cases H path mode st e herr with
      ⟨_, h⟩ | ⟨slot, errno, s1, hopen, _, h⟩ | ⟨slot, bdev, s1, hopen, _, _, h⟩
    · rw [h]
    · rw [h]
      exact hfail path (mode ||| H.FMODE_EXCL) slot st.2 errno s1 hopen
    · rw [h]
      exact hundo path (mode ||| H.FMODE_EXCL) slot st.2 bdev s1 hopen

/-- Witness for C7 on the example host: with the identifier counter at the end
of its range, registering `/dev/a` acquires a slot, claims the device, fails
with `IdExhausted` and leaves registry and host as they were. -/
theorem register_device_failure_atomic_witness :
    (register_device simHost "/dev/a" 3 (exhaustedIds, simInit)).1 =
        Except.error RegError.IdExhausted
      ∧ (register_device simHost "/dev/a" 3 (exhaustedIds, simInit)).2.1 = exhaustedIds
      ∧ (register_device simHost "/dev/a" 3 (exhaustedIds, simInit)).2.2.claimed =
          simInit.claimed :=
  ⟨by decide,
   (register_device_failure_atomic simHost (fun s => s.claimed) simHost_open_fail
      simHost_put_undoes "/dev/a" 3 (exhaustedIds, simInit) RegError.IdExhausted
      (by decide)).2.2.2.2.2.1,
   (register_device_failure_atomic simHost (fun s => s.claimed) simHost_open_fail
      simHost_put_undoes "/dev/a" 3 (exhaustedIds, simInit) RegError.IdExhausted
      (by decide)).2.2.2.2.2.2⟩

/-- C8: identifiers are strictly increasing and never repeat.  Over every
sequence of register and unregister operations on a registry whose counter is a
32-bit value, the identifiers issued are strictly increasing, each is at least
the counter before the run and below the counter after it, the counter never
decreases and stays a 32-bit value, unregistering leaves the counter alone, and
with the counter at the end of the range no registration succeeds: allocation
fails, the counter stays where it is and does not wrap, and the error is
`IdExhausted` exactly when a slot was acquired and the claim succeeded. -/
theorem identifiers_strictly_increasing {σ : Type} (H : Host σ) (ops : List RegOp)
    (st : casdsk_module × σ) (hwf : st.1.next_disk_id < 2 ^ 32) :
    List.Pairwise (fun a b => a < b) (run_ops H ops st).1
      ∧ (∀ id ∈ (run_ops H ops st).1,
          st.1.next_disk_id ≤ id ∧ id < (run_ops H ops st).2.1.next_disk_id
            ∧ id < UINT32_MAX)
      ∧ st.1.next_disk_id ≤ (run_ops H ops st).2.1.next_disk_id
      ∧ (run_ops H ops st).2.1.next_disk_id < 2 ^ 32
      ∧ (∀ id : Nat, (unregister_device H id st).2.1.next_disk_id = st.1.next_disk_id)
      ∧ (allocate st.1.next_disk_id = none ↔ st.1.next_disk_id = UINT32_MAX)
      ∧ (∀ (path : String) (mode : fmode_t), st.1.next_disk_id = UINT32_MAX →
          (∃ e : RegError, (register_device H path mode st).1 = Except.error e)
            ∧ (register_device H path mode st).2.1.next_disk_id = UINT32_MAX
            ∧ ((∃ slot : Nat, (∃ cache : Pool, st.1.disk_cache.acquire = some (slot, cache))
                  ∧ ∃ (bdev : Nat) (s1 : σ),
                    open_bdev_exclusive H path mode slot st.2 = (Except.ok bdev, s1)) ↔
                (register_device H path mode st).1 = Except.error RegError.IdExhausted)) := by
  obtain ⟨h1, h2, h3, h4⟩ := run_ops_counter H ops st
  have hmax : UINT32_MAX = 4294967295 := rfl
  refine ⟨h3, h2, h1, h4 hwf, fun id => unregister_device_counter H id st, ?_, ?_⟩
  · unfold allocate
    constructor
    · intro h
      split at h
      · omega
      · simp at h
    · intro h
      simp [h]
  · intro path mode hfull
    cases hres : (register_device H path mode st).1 with
    | ok id =>
      have := (register_device_ok_cases H path mode st id hres).2.1
      omega
    | error e =>
      refine ⟨⟨e, rfl⟩, ?_, ?_⟩
      · rw [register_device_error_registry H path mode st e hres]
        exact hfull
      · rw [← hres]
        exact register_device_exhausted_iff H path mode st (by omega)

/-- Witness for C8 on the example host, from the initial registry: two devices
are registered, a second claim of the first fails, the first is unregistered
and registered again; the identifiers issued are 1, 2, 3. -/
theorem identifiers_strictly_increasing_witness :
    (casdsk_init 2 2).next_disk_id < 2 ^ 32
      ∧ (run_ops simHost [RegOp.register "/dev/a" 3, RegOp.register "/dev/a" 3,
          RegOp.register "/dev/b" 3, RegOp.unregister 1, RegOp.register "/dev/a" 3]
          (casdsk_init 2 2, simInit)).1 = [1, 2, 3]
      ∧ List.Pairwise (fun a b => a < b)
          (run_ops simHost [RegOp.register "/dev/a" 3, RegOp.register "/dev/a" 3,
            RegOp.register "/dev/b" 3, RegOp.unregister 1, RegOp.register "/dev/a" 3]
            (casdsk_init 2 2, simInit)).1 :=
  ⟨by decide, by decide,
   (identifiers_strictly_increasing simHost
      [RegOp.register "/dev/a" 3, RegOp.register "/dev/a" 3,
        RegOp.register "/dev/b" 3, RegOp.unregister 1, RegOp.register "/dev/a" 3]
      (casdsk_init 2 2, simInit) (by decide)).1⟩

end CasDisk
